import Mathlib

/-!
Verification of the LE Audio unicast client core (system/bta/le_audio/client.cc)
against its natural-language specification.  Each section embeds the relevant
source functions as executable Lean definitions and proves (or refutes) one
claim about them.  External collaborators that live outside client.cc (the
group state machine, devices.cc helpers, the codec library) are abstracted as
explicit oracle parameters or, where the spec pins their behaviour down,
modelled from the spec and flagged as such in the doc comment.
-/

/-- Audio-session coordinator state for one direction.  The constructor order
follows the declaration order of the enum (spec section 4.6 lists the states as
IDLE, READY_TO_START, STARTED, READY_TO_RELEASE, RELEASING); the source
compares states with relational operators on the underlying enum value. -/
inductive AudioState
  | idle
  | readyToStart
  | started
  | readyToRelease
  | releasing
deriving DecidableEq

/-- Ordinal of an AudioState, mirroring the C++ enum value. -/
def AudioState.toNat : AudioState → Nat
  | .idle => 0
  | .readyToStart => 1
  | .started => 2
  | .readyToRelease => 3
  | .releasing => 4

/-- ASCS ASE / group states used by the client (spec section 3). -/
inductive AseState
  | idle
  | codecConfigured
  | qosConfigured
  | enabling
  | streaming
  | disabling
  | releasing
deriving DecidableEq

/- ------------------------------------------------------------------ -/
/- C1: InternalGroupStream admission checks                            -/
/- ------------------------------------------------------------------ -/

/-- Modelled from the spec: the numeric PACS context bitmask values of
LeAudioContextType (declared in le_audio_types.h, which is outside src/).
UNSPECIFIED is the lowest context bit and RFU the first reserved value above
EMERGENCYALARM; spec section 3 lists the enum, the values follow the Bluetooth
assigned numbers. -/
def kContextTypeUnspecified : Nat := 1

/-- Modelled from the spec: first reserved (out of range) context value;
see kContextTypeUnspecified. -/
def kContextTypeRFU : Nat := 4096

/-- Snapshot of one registered group as read by InternalGroupStream:
its id, active-context bitmap (GetActiveContexts), whether any member is
connected (IsAnyDeviceConnected) and whether current state differs from
target state (IsInTransition). -/
structure StreamGroup where
  gid : Int
  activeContexts : Nat
  anyDeviceConnected : Bool
  inTransition : Bool
deriving DecidableEq

/-- Embedding of LeAudioDeviceGroups::FindById: first group with the id. -/
def findGroupById (gs : List StreamGroup) (gid : Int) : Option StreamGroup :=
  gs.find? (fun g => g.gid == gid)

/-- Embedding of LeAudioDeviceGroups::IsAnyInTransition: some registered group
is between its current and target states. -/
def isAnyInTransition (gs : List StreamGroup) : Bool :=
  gs.any (fun g => g.inTransition)

/-- Embedding of LeAudioClientImpl::InternalGroupStream (client.cc 549-592).
The group state machine call groupStateMachine_->StartStream is abstracted as
the oracle startStream; the result records the boolean return value and the
StartStream invocation (group id and final context type) when one was made. -/
def InternalGroupStream (gs : List StreamGroup) (startStream : Int → Nat → Bool)
    (group_id : Int) (context_type : Nat) : Bool × Option (Int × Nat) :=
  if kContextTypeRFU ≤ context_type then (false, none)
  else
    match findGroupById gs group_id with
    | none => (false, none)
    | some group =>
      let final_context_type :=
        if context_type &&& group.activeContexts == 0 then kContextTypeUnspecified
        else context_type
      if !group.anyDeviceConnected then (false, none)
      else if isAnyInTransition gs then (false, none)
      else (startStream group_id final_context_type, some (group_id, final_context_type))

/-- C1: a GroupStream request is rejected (returns false, StartStream never
invoked) when no member of the target group is connected or when any group
globally is in transition; an in-range context type absent from the group's
active-context bitmap is not rejected for that reason and instead StartStream
is invoked with context UNSPECIFIED. -/
theorem internalGroupStream_admission
    (gs : List StreamGroup) (ss : Int → Nat → Bool) (gid : Int) (ctx : Nat)
    (g : StreamGroup) (hfind : findGroupById gs gid = some g) :
    ((g.anyDeviceConnected = false ∨ isAnyInTransition gs = true) →
      InternalGroupStream gs ss gid ctx = (false, none))
    ∧ (ctx < kContextTypeRFU → ctx &&& g.activeContexts = 0 →
        g.anyDeviceConnected = true → isAnyInTransition gs = false →
        InternalGroupStream gs ss gid ctx =
          (ss gid kContextTypeUnspecified, some (gid, kContextTypeUnspecified))) := by
  constructor
  · intro hrej
    unfold InternalGroupStream
    by_cases hr : kContextTypeRFU ≤ ctx
    · simp [hr]
    · simp only [hr, if_false, hfind]
      rcases hrej with hc | ht
      · simp [hc]
      · by_cases hcon : g.anyDeviceConnected
        · simp [hcon, ht]
        · simp [hcon]
  · intro hlt habs hcon htr
    unfold InternalGroupStream
    have hr : ¬ kContextTypeRFU ≤ ctx := by omega
    simp [hr, hfind, habs, hcon, htr]

/-- Concrete instance of internalGroupStream_admission: a group in transition
makes the request fail with no StartStream call. -/
theorem internalGroupStream_admission_witness :
    InternalGroupStream [⟨1, 2, true, true⟩] (fun _ _ => true) 1 4 = (false, none) :=
  (internalGroupStream_admission [⟨1, 2, true, true⟩] (fun _ _ => true) 1 4
    ⟨1, 2, true, true⟩ rfl).1 (Or.inr rfl)

/- ------------------------------------------------------------------ -/
/- C8: uplink decoded PCM buffer sizing                                -/
/- ------------------------------------------------------------------ -/

/-- Embedding of the uplink PCM buffer sizing in
LeAudioClientImpl::SendAudioData (client.cc 2194-2211): the pcm_size choice by
data interval and framework sample rate; none models the early return that
drops the SDU with a BAD dt_us error.  C++ int division on the nonnegative
sample rate is Nat division. -/
def uplinkPcmSize (dt_us af_hz : Nat) : Option Nat :=
  if dt_us = 10000 then some (if af_hz = 44100 then 480 else af_hz / 100)
  else if dt_us = 7500 then some (if af_hz = 44100 then 360 else af_hz * 3 / 400)
  else none

/-- Embedding of the decode stage that follows the sizing (client.cc
2213-2229): when the sizing succeeds a PCM buffer of that many samples is
decoded into (with packet-loss concealment when the SDU length differs from
octets_per_codec_frame); when it fails no decoding takes place. -/
def sendAudioDataDecodeStage (dt_us af_hz octets size : Nat) :
    Option (Nat × Bool) :=
  match uplinkPcmSize dt_us af_hz with
  | none => none
  | some n => some (n, decide (octets ≠ size))

/-- C8: the uplink receive path sizes the decoded PCM buffer as 480 samples at
10 ms and 44100 Hz, af_hz/100 at 10 ms otherwise, 360 at 7.5 ms and 44100 Hz,
af_hz*3/400 at 7.5 ms otherwise, and drops the SDU without decoding for every
other data interval. -/
theorem uplink_pcm_buffer_sizing (dt af octets size : Nat) :
    (sendAudioDataDecodeStage 10000 af octets size =
      some ((if af = 44100 then 480 else af / 100), decide (octets ≠ size)))
    ∧ (sendAudioDataDecodeStage 7500 af octets size =
      some ((if af = 44100 then 360 else af * 3 / 400), decide (octets ≠ size)))
    ∧ (dt ≠ 10000 → dt ≠ 7500 → sendAudioDataDecodeStage dt af octets size = none) := by
  refine ⟨rfl, rfl, ?_⟩
  intro h1 h2
  simp [sendAudioDataDecodeStage, uplinkPcmSize, h1, h2]

/-- Concrete instance of uplink_pcm_buffer_sizing: a 5 ms interval is dropped
without decoding. -/
theorem uplink_pcm_buffer_sizing_witness :
    sendAudioDataDecodeStage 5000 48000 100 100 = none :=
  (uplink_pcm_buffer_sizing 5000 48000 100 100).2.2 (by decide) (by decide)

/- ------------------------------------------------------------------ -/
/- C10: empty-optional dereference in UpdateContextAndLocations        -/
/- ------------------------------------------------------------------ -/

/-- Outcome of UpdateContextAndLocations: no callback, an OnAudioConf carrying
a context bitmap, or an OnAudioConf whose active-contexts argument is read by
dereferencing the empty optional (undefined behaviour in the C++). -/
inductive ConfEmit
  | noCallback
  | callbackWith (contexts : Nat)
  | emptyOptionalDeref
deriving DecidableEq

/-- Embedding of LeAudioClientImpl::UpdateContextAndLocations (client.cc
330-341).  The inputs are the result of group->UpdateActiveContextsMap (some
new bitmap when the group's active contexts changed, none otherwise) and of
group->ReloadAudioLocations (true when the aggregated locations changed); the
callback is invoked when either reports a change, and its active-contexts
argument is new_group_updated_contexts->to_ulong() with no emptiness check. -/
def UpdateContextAndLocations (updatedContexts : Option Nat)
    (locationsChanged : Bool) : ConfEmit :=
  if updatedContexts.isSome || locationsChanged then
    match updatedContexts with
    | some u => ConfEmit.callbackWith u
    | none => ConfEmit.emptyOptionalDeref
  else ConfEmit.noCallback

/-- C10 failing input: when only the audio locations changed and the contexts
stayed the same, UpdateContextAndLocations invokes OnAudioConf by reading the
empty optional, contradicting the claim that the dereferenced optional is
always non-empty. -/
theorem updateContextAndLocations_empty_deref :
    UpdateContextAndLocations none true = ConfEmit.emptyOptionalDeref := rfl

/- ------------------------------------------------------------------ -/
/- C2: available-contexts deferral while transitioning or streaming    -/
/- ------------------------------------------------------------------ -/

/-- Slice of a group's state read and written by the available-contexts
notification handler: transition flag, whether the group state is STREAMING,
the pending-update slot and the active-context bitmap returned by
GetActiveContexts. -/
structure GroupCtx where
  inTransition : Bool
  isStreaming : Bool
  pending : Option Nat
  active : Nat
deriving DecidableEq

/-- Embedding of the available-audio-contexts branch of
LeAudioClientImpl::LeAudioCharValueHandle (client.cc 1079-1118), given that
the notified device's available contexts changed (updated_avail is the non-zero
change bitmap returned by SetAvailableContexts) and that the device's group is
known.  The devices.cc helper group->UpdateActiveContextsMap is abstracted as
the oracle updateMap from the current active bitmap and the new contexts to
the new active bitmap when the map changed (none when unchanged).  The second
component lists the context bitmaps carried by the emitted OnAudioConf
callbacks. -/
def handleAvailableContextsChange (updateMap : Nat → Nat → Option Nat)
    (g : GroupCtx) (updated_avail : Nat) : GroupCtx × List Nat :=
  if updated_avail == 0 then (g, [])
  else if g.inTransition || g.isStreaming then
    ({ g with pending := some updated_avail }, [])
  else
    match updateMap g.active updated_avail with
    | some u => ({ g with active := u }, [u])
    | none => (g, [])

/-- Embedding of LeAudioClientImpl::HandlePendingAvailableContexts (client.cc
3227-3246), with group->UpdateActiveContextsMap abstracted as for
handleAvailableContextsChange.  The pending slot is always cleared; OnAudioConf
is emitted with the updated bitmap only when the map changed. -/
def HandlePendingAvailableContexts (updateMap : Nat → Nat → Option Nat)
    (g : GroupCtx) : GroupCtx × List Nat :=
  match g.pending with
  | none => (g, [])
  | some p =>
    match updateMap g.active p with
    | some u => ({ g with active := u, pending := none }, [u])
    | none => ({ g with pending := none }, [])

/-- C2: an available-contexts change arriving while the group is in transition
or streaming is stashed in the pending slot with no OnAudioConf; when the group
next becomes idle the stash is applied, the slot cleared, and (when applying it
changes the group's active-context map, yielding the new bitmap u) exactly one
OnAudioConf is emitted carrying u. -/
theorem availableContexts_stash_and_apply
    (updateMap : Nat → Nat → Option Nat) (g : GroupCtx) (v u : Nat)
    (hv : v ≠ 0) (hts : g.inTransition = true ∨ g.isStreaming = true)
    (hu : updateMap g.active v = some u) :
    handleAvailableContextsChange updateMap g v = ({ g with pending := some v }, [])
    ∧ HandlePendingAvailableContexts updateMap { g with pending := some v } =
        ({ g with pending := none, active := u }, [u]) := by
  constructor
  · unfold handleAvailableContextsChange
    have hv' : (v == 0) = false := by simpa using hv
    rcases hts with h | h <;> simp [hv', h]
  · unfold HandlePendingAvailableContexts
    simp [hu]

/-- Concrete instance of availableContexts_stash_and_apply: a change to bitmap
5 during transition is stashed and later applied with a single OnAudioConf. -/
theorem availableContexts_stash_and_apply_witness :
    handleAvailableContextsChange (fun _ v => some v) ⟨true, false, none, 3⟩ 5 =
      (⟨true, false, some 5, 3⟩, [])
    ∧ HandlePendingAvailableContexts (fun _ v => some v) ⟨true, false, some 5, 3⟩ =
      (⟨true, false, none, 5⟩, [5]) :=
  availableContexts_stash_and_apply (fun _ v => some v) ⟨true, false, none, 3⟩ 5 5
    (by decide) (Or.inl rfl) rfl

/- ------------------------------------------------------------------ -/
/- C5: context classification and selection                            -/
/- ------------------------------------------------------------------ -/

/-- LeAudioContextType as a plain enumeration (spec section 3). -/
inductive ContextType
  | unspecified
  | conversational
  | media
  | game
  | instructional
  | ringtone
  | notifications
  | alerts
  | emergencyalarm
  | rfu
deriving DecidableEq

/-- Android audio_content_type_t values matched by the classifier. -/
inductive ContentType
  | unknown
  | speech
  | music
  | movie
  | sonification
deriving DecidableEq

/-- Android audio_usage_t values (the ones matched by the classifier plus
representatives of the remaining ones, which all take the default branch). -/
inductive UsageType
  | unknown
  | media
  | voiceCommunication
  | voiceCommunicationSignalling
  | alarm
  | notification
  | notificationTelephonyRingtone
  | notificationEvent
  | assistanceAccessibility
  | assistanceSonification
  | game
  | assistant
  | emergency
deriving DecidableEq

/-- Embedding of LeAudioClientImpl::AudioContentToLeAudioContext (client.cc
2923-2980): the sticky-conversational block (two switches) followed by the
content switch, the usage switch and the MEDIA default. -/
def AudioContentToLeAudioContext (current_context_type : ContextType)
    (content_type : ContentType) (usage : UsageType) : ContextType :=
  if current_context_type = ContextType.conversational ∧
      (content_type = ContentType.sonification ∨ content_type = ContentType.speech) then
    ContextType.conversational
  else if current_context_type = ContextType.conversational ∧
      (usage = UsageType.notificationTelephonyRingtone ∨ usage = UsageType.notification ∨
       usage = UsageType.alarm ∨ usage = UsageType.emergency ∨
       usage = UsageType.voiceCommunication) then
    ContextType.conversational
  else
    match content_type with
    | ContentType.speech => ContextType.conversational
    | ContentType.music => ContextType.media
    | ContentType.movie => ContextType.media
    | ContentType.sonification => ContextType.media
    | _ =>
      match usage with
      | UsageType.voiceCommunication => ContextType.conversational
      | UsageType.game => ContextType.game
      | UsageType.notification => ContextType.notifications
      | UsageType.notificationTelephonyRingtone => ContextType.ringtone
      | UsageType.alarm => ContextType.alerts
      | UsageType.emergency => ContextType.emergencyalarm
      | _ => ContextType.media

/-- Classification rule written from the claim's words, to be compared with
the source embedding: sticky conversational, then content, then usage, then
MEDIA. -/
def specAudioContentToLeAudioContext (cur : ContextType) (ct : ContentType)
    (u : UsageType) : ContextType :=
  if cur = ContextType.conversational ∧
      (ct = ContentType.speech ∨ ct = ContentType.sonification ∨
       u = UsageType.voiceCommunication ∨ u = UsageType.notification ∨
       u = UsageType.notificationTelephonyRingtone ∨ u = UsageType.alarm ∨
       u = UsageType.emergency) then ContextType.conversational
  else if ct = ContentType.speech then ContextType.conversational
  else if ct = ContentType.music ∨ ct = ContentType.movie ∨
      ct = ContentType.sonification then ContextType.media
  else if u = UsageType.voiceCommunication then ContextType.conversational
  else if u = UsageType.game then ContextType.game
  else if u = UsageType.notification then ContextType.notifications
  else if u = UsageType.notificationTelephonyRingtone then ContextType.ringtone
  else if u = UsageType.alarm then ContextType.alerts
  else if u = UsageType.emergency then ContextType.emergencyalarm
  else ContextType.media

/-- Embedding of LeAudioClientImpl::ChooseContextType (client.cc 2982-2996):
CONVERSATIONAL if present, else MEDIA if present, else the first element
(none when the vector is empty, where the C++ indexing would be out of
bounds; the only caller guards against an empty vector). -/
def ChooseContextType (available_contents : List ContextType) : Option ContextType :=
  if available_contents.contains ContextType.conversational then
    some ContextType.conversational
  else if available_contents.contains ContextType.media then
    some ContextType.media
  else available_contents.head?

/-- C5: the classifier agrees with the claim's rule on every input, and the
selection among candidate contexts is CONVERSATIONAL first, MEDIA second,
first-listed otherwise. -/
theorem audioContentClassification_spec :
    (∀ cur ct u, AudioContentToLeAudioContext cur ct u =
      specAudioContentToLeAudioContext cur ct u)
    ∧ ∀ l : List ContextType,
        (l.contains ContextType.conversational = true →
          ChooseContextType l = some ContextType.conversational)
        ∧ (l.contains ContextType.conversational = false →
            l.contains ContextType.media = true →
            ChooseContextType l = some ContextType.media)
        ∧ (l.contains ContextType.conversational = false →
            l.contains ContextType.media = false →
            ChooseContextType l = l.head?) := by
  constructor
  · intro cur ct u
    cases cur <;> cases ct <;> cases u <;> rfl
  · intro l
    refine ⟨fun h => ?_, fun h1 h2 => ?_, fun h1 h2 => ?_⟩
    · unfold ChooseContextType
      rw [h]
      simp
    · unfold ChooseContextType
      rw [h1, h2]
      simp
    · unfold ChooseContextType
      rw [h1, h2]
      simp

/-- Concrete instance of audioContentClassification_spec: with neither
CONVERSATIONAL nor MEDIA among the candidates the first-listed one wins. -/
theorem audioContentClassification_spec_witness :
    ChooseContextType [ContextType.game, ContextType.alerts] =
      [ContextType.game, ContextType.alerts].head? :=
  (audioContentClassification_spec.2 [ContextType.game, ContextType.alerts]).2.2 rfl rfl

/- ------------------------------------------------------------------ -/
/- C3: group transition-deadline timeout handler                       -/
/- ------------------------------------------------------------------ -/

/-- Side effects of the client observable in the claims: streaming-request
confirmations and cancellations toward the audio framework (the Source half
feeds the speakers, the Sink half the microphone), ACL disconnects, the
suspend keep-alive timer, and LC3 instance lifecycle events. -/
inductive ClientEvent
  | cancelSourceRequest
  | cancelSinkRequest
  | confirmSourceRequest
  | confirmSinkRequest
  | disconnectAcl (addr : Nat)
  | armSuspendTimerGroupStop
  | cancelSuspendTimer
  | startSendingEvt
  | freeEncoders
  | stopStreamRequest
deriving DecidableEq

/-- The two audio-framework directions held by the client:
audio_sender_state_ (speaker path) and audio_receiver_state_ (microphone
path). -/
structure AudioDirState where
  sender : AudioState
  receiver : AudioState
deriving DecidableEq

/-- Embedding of LeAudioClientImpl::CancelStreamingRequest (client.cc
352-362): each direction whose state is at least READY_TO_START sends a
CancelStreamingRequest to its audio-framework half and is reset to IDLE. -/
def CancelStreamingRequest (s : AudioDirState) : AudioDirState × List ClientEvent :=
  let (sender', ev1) :=
    if AudioState.readyToStart.toNat ≤ s.sender.toNat then
      (AudioState.idle, [ClientEvent.cancelSourceRequest])
    else (s.sender, [])
  let (receiver', ev2) :=
    if AudioState.readyToStart.toNat ≤ s.receiver.toNat then
      (AudioState.idle, [ClientEvent.cancelSinkRequest])
    else (s.receiver, [])
  (⟨sender', receiver'⟩, ev1 ++ ev2)

/-- Member of a group as seen by the timeout handler: its address and whether
it is an active device (GetFirstActiveDevice / GetNextActiveDevice walk the
active members in list order). -/
structure TDev where
  addr : Nat
  isActive : Bool
deriving DecidableEq

/-- Group slice used by the timeout handler: ordered members and target
state. -/
structure TimeoutGroup where
  devs : List TDev
  targetState : AseState
deriving DecidableEq

/-- Embedding of group->GetFirstActiveDevice() together with the list position
it leaves the iteration at: the first active member and the members after
it. -/
def firstActiveSplit : List TDev → Option (TDev × List TDev)
  | [] => none
  | d :: rest => if d.isActive then some (d, rest) else firstActiveSplit rest

/-- The devices disconnected by the do-while loop of
OnLeAudioDeviceSetStateTimeout: starting from GetFirstActiveDevice (or, when
there is none, GetFirstDevice as the fallback), the loop disconnects the
current device and steps to GetNextActiveDevice, i.e. the remaining active
members in order. -/
def timeoutDisconnects (devs : List TDev) : List TDev :=
  match firstActiveSplit devs with
  | some (d, rest) => d :: rest.filter (fun x => x.isActive)
  | none =>
    match devs with
    | [] => []
    | d :: rest => d :: rest.filter (fun x => x.isActive)

/-- Embedding of LeAudioClientImpl::OnLeAudioDeviceSetStateTimeout (client.cc
294-328) for a group id that resolves to grp (the group still exists): set the
group target state to IDLE, run CancelStreamingRequest, then force-disconnect
the ACL of each device visited by the loop. -/
def OnLeAudioDeviceSetStateTimeout (grp : Option TimeoutGroup)
    (s : AudioDirState) : Option TimeoutGroup × AudioDirState × List ClientEvent :=
  match grp with
  | none => (none, s, [])
  | some g =>
    let g' := { g with targetState := AseState.idle }
    let (s', ev1) := CancelStreamingRequest s
    let ev2 := (timeoutDisconnects g.devs).map (fun d => ClientEvent.disconnectAcl d.addr)
    (some g', s', ev1 ++ ev2)

/-- When a first active member exists, the members after the point the
iterator starts at are exactly the later active members, so every active
member is either the first one or in the visited suffix. -/
theorem firstActiveSplit_covers (devs : List TDev) (d0 : TDev) (rest : List TDev)
    (h : firstActiveSplit devs = some (d0, rest)) :
    ∀ d ∈ devs, d.isActive = true → d = d0 ∨ d ∈ rest := by
  induction devs with
  | nil => simp [firstActiveSplit] at h
  | cons x xs ih =>
    unfold firstActiveSplit at h
    by_cases hx : x.isActive
    · simp [hx] at h
      intro d hd _
      rcases List.mem_cons.mp hd with rfl | hdm
      · exact Or.inl h.1
      · exact Or.inr (h.2 ▸ hdm)
    · simp [hx] at h
      intro d hd hact
      rcases List.mem_cons.mp hd with rfl | hdm
      · exact absurd hact (by simpa using hx)
      · exact ih h d hdm hact

/-- When no active member exists the whole member list is inactive. -/
theorem firstActiveSplit_none (devs : List TDev)
    (h : firstActiveSplit devs = none) :
    ∀ d ∈ devs, d.isActive = false := by
  induction devs with
  | nil => simp
  | cons x xs ih =>
    unfold firstActiveSplit at h
    by_cases hx : x.isActive
    · simp [hx] at h
    · simp [hx] at h
      intro d hd
      rcases List.mem_cons.mp hd with rfl | hdm
      · simpa using hx
      · exact ih h d hdm

/-- Every active member of the group is visited by the disconnect loop. -/
theorem timeoutDisconnects_covers_active (devs : List TDev) :
    ∀ d ∈ devs, d.isActive = true → d ∈ timeoutDisconnects devs := by
  intro d hd hact
  unfold timeoutDisconnects
  cases hsplit : firstActiveSplit devs with
  | none => exact absurd (firstActiveSplit_none devs hsplit d hd) (by simp [hact])
  | some p =>
    obtain ⟨d0, rest⟩ := p
    rcases firstActiveSplit_covers devs d0 rest hsplit d hd hact with rfl | hmem
    · exact List.mem_cons_self _ _
    · exact List.mem_cons_of_mem _ (List.mem_filter.mpr ⟨hmem, by simp [hact]⟩)

/-- C3: when the transition-deadline timer fires for a group that still
exists, the handler sets the group target state to IDLE, resets both
audio-framework direction states to IDLE (cancelling any pending streaming
request), and emits a forced ACL disconnect for every active member. -/
theorem setStateTimeout_recovery (g : TimeoutGroup) (s : AudioDirState) :
    ∀ g' s' evs, OnLeAudioDeviceSetStateTimeout (some g) s = (some g', s', evs) →
      g'.targetState = AseState.idle
      ∧ s'.sender = AudioState.idle ∧ s'.receiver = AudioState.idle
      ∧ ∀ d ∈ g.devs, d.isActive = true → ClientEvent.disconnectAcl d.addr ∈ evs := by
  intro g' s' evs h
  unfold OnLeAudioDeviceSetStateTimeout at h
  simp only [Prod.mk.injEq, Option.some.injEq] at h
  obtain ⟨hg, hs, hev⟩ := h
  refine ⟨by rw [← hg], ?_, ?_, ?_⟩
  · rw [← hs]
    unfold CancelStreamingRequest
    cases s.sender <;> cases s.receiver <;> rfl
  · rw [← hs]
    unfold CancelStreamingRequest
    cases s.sender <;> cases s.receiver <;> rfl
  · intro d hd hact
    rw [← hev]
    refine List.mem_append_right _ ?_
    exact List.mem_map.mpr ⟨d, timeoutDisconnects_covers_active g.devs d hd hact, rfl⟩

/-- Concrete instance of setStateTimeout_recovery: two members, one active,
while a start request was pending. -/
theorem setStateTimeout_recovery_witness :
    AseState.idle = AseState.idle
    ∧ AudioState.idle = AudioState.idle ∧ AudioState.idle = AudioState.idle
    ∧ ∀ d ∈ [TDev.mk 7 false, TDev.mk 9 true],
        d.isActive = true →
          ClientEvent.disconnectAcl d.addr ∈
            [ClientEvent.cancelSourceRequest, ClientEvent.disconnectAcl 9] :=
  setStateTimeout_recovery ⟨[⟨7, false⟩, ⟨9, true⟩], AseState.enabling⟩
    ⟨AudioState.readyToStart, AudioState.idle⟩
    ⟨[⟨7, false⟩, ⟨9, true⟩], AseState.idle⟩ ⟨AudioState.idle, AudioState.idle⟩
    [ClientEvent.cancelSourceRequest, ClientEvent.disconnectAcl 9] rfl

/- ------------------------------------------------------------------ -/
/- C6: late attach versus stop-and-reconfigure                         -/
/- ------------------------------------------------------------------ -/

/-- Inputs of AttachToStreamingGroupIfNeeded.  The helper
get_num_of_devices_in_configuration (outside src/) and the devices.cc call
leAudioDevice->ConfigureAses are abstracted as the values they return. -/
structure AttachCtx where
  deviceGroupId : Int
  activeGroupId : Int
  senderState : AudioState
  receiverState : AudioState
  numOfDevicesInConfiguration : Nat
  numOfConnected : Nat
  configureAsesOk : Bool
deriving DecidableEq

/-- Outcome of AttachToStreamingGroupIfNeeded. -/
inductive AttachOutcome
  | notActiveGroup
  | notStreaming
  | stopAndReconfigure
  | configurationFailed
  | attached
deriving DecidableEq

/-- Embedding of LeAudioClientImpl::AttachToStreamingGroupIfNeeded (client.cc
1769-1842): nothing to do unless the device is in the active group and some
audio direction is in use; then SetPendingConfiguration plus StopStream when
the current AudioSetConfiguration covers fewer devices than are connected;
otherwise the device's ASEs are configured from the existing stream
configuration and, when that succeeds, AttachToStream is invoked. -/
def AttachToStreamingGroupIfNeeded (c : AttachCtx) : AttachOutcome :=
  if c.deviceGroupId ≠ c.activeGroupId then AttachOutcome.notActiveGroup
  else if c.senderState = AudioState.idle ∧ c.receiverState = AudioState.idle then
    AttachOutcome.notStreaming
  else if c.numOfDevicesInConfiguration < c.numOfConnected then
    AttachOutcome.stopAndReconfigure
  else if c.configureAsesOk then AttachOutcome.attached
  else AttachOutcome.configurationFailed

/-- C6: for a newly connected member of the active group while audio is in
use, stop-and-reconfigure is chosen exactly when the configuration covers
strictly fewer devices than are connected, and with equal counts (and the ASE
configuration calls succeeding) the stream is not stopped and AttachToStream
is invoked. -/
theorem attach_vs_reconfigure (c : AttachCtx)
    (hg : c.deviceGroupId = c.activeGroupId)
    (hu : ¬ (c.senderState = AudioState.idle ∧ c.receiverState = AudioState.idle)) :
    (AttachToStreamingGroupIfNeeded c = AttachOutcome.stopAndReconfigure ↔
      c.numOfDevicesInConfiguration < c.numOfConnected)
    ∧ (c.numOfDevicesInConfiguration = c.numOfConnected → c.configureAsesOk = true →
        AttachToStreamingGroupIfNeeded c = AttachOutcome.attached) := by
  constructor
  · constructor
    · intro h
      by_contra hlt
      unfold AttachToStreamingGroupIfNeeded at h
      by_cases hok : c.configureAsesOk <;> simp [hg, hu, hlt, hok] at h
    · intro hlt
      unfold AttachToStreamingGroupIfNeeded
      simp [hg, hu, hlt]
  · intro heq hok
    unfold AttachToStreamingGroupIfNeeded
    have hlt : ¬ c.numOfDevicesInConfiguration < c.numOfConnected := by omega
    simp [hg, hu, hlt, hok]

/-- Concrete instance of attach_vs_reconfigure: one device in the
configuration, one connected, configuration succeeds, so the device is
attached seamlessly. -/
theorem attach_vs_reconfigure_witness :
    AttachToStreamingGroupIfNeeded ⟨2, 2, AudioState.started, AudioState.idle, 1, 1, true⟩ =
      AttachOutcome.attached :=
  (attach_vs_reconfigure ⟨2, 2, AudioState.started, AudioState.idle, 1, 1, true⟩
    rfl (by simp)).2 rfl rfl

/- ------------------------------------------------------------------ -/
/- C7: resume within the suspend keep-alive window                     -/
/- ------------------------------------------------------------------ -/

/-- Coordinator state touched by the resume and suspend handlers: the two
direction states plus whether the suspend keep-alive alarm is scheduled. -/
structure CoordState where
  sender : AudioState
  receiver : AudioState
  timerScheduled : Bool
deriving DecidableEq

/-- External observations read by OnAudioSinkResume: whether the active group
resolves, whether GetCodecConfigurationByDirection finds a sink configuration
for the current context (set_configurations helper outside src/), whether the
group state is STREAMING, the group's pending-configuration flag and the
result of OnAudioResume (which issues InternalGroupStream). -/
structure ResumeCtx where
  groupFound : Bool
  sinkConfAvailable : Bool
  groupStreaming : Bool
  pendingConfiguration : Bool
  resumeOk : Bool
deriving DecidableEq

/-- Embedding of LeAudioClientImpl::OnAudioSinkResume (client.cc 2689-2788):
the full switch on audio_sender_state_ with the nested switch on
audio_receiver_state_; cancelling the suspend keep-alive alarm is guarded by
alarm_is_scheduled as in the source. -/
def OnAudioSinkResume (c : ResumeCtx) (s : CoordState) : CoordState × List ClientEvent :=
  if !c.groupFound then (s, [])
  else if !c.sinkConfAvailable then (s, [ClientEvent.cancelSourceRequest])
  else
    match s.sender with
    | AudioState.started => (s, [ClientEvent.confirmSourceRequest])
    | AudioState.idle =>
      match s.receiver with
      | AudioState.idle =>
        if c.resumeOk then ({ s with sender := AudioState.readyToStart }, [])
        else (s, [ClientEvent.cancelSourceRequest])
      | AudioState.readyToStart | AudioState.started =>
        let s' := { s with sender := AudioState.readyToStart }
        if c.groupStreaming then (s', [ClientEvent.startSendingEvt]) else (s', [])
      | AudioState.releasing | AudioState.readyToRelease =>
        if c.pendingConfiguration then ({ s with sender := s.receiver }, [])
        else (s, [ClientEvent.cancelSourceRequest])
    | AudioState.readyToStart => (s, [])
    | AudioState.readyToRelease =>
      match s.receiver with
      | AudioState.started | AudioState.idle | AudioState.readyToRelease =>
        ({ s with sender := AudioState.started, timerScheduled := false },
          (if s.timerScheduled then [ClientEvent.cancelSuspendTimer] else [])
            ++ [ClientEvent.confirmSourceRequest])
      | _ => (s, [ClientEvent.cancelSourceRequest])
    | AudioState.releasing => (s, [ClientEvent.cancelSourceRequest])

/-- Embedding of LeAudioClientImpl::OnAudioSuspend (client.cc 2631-2652):
with an active group it (re)arms the keep-alive alarm whose expiry callback is
GroupStop on the active group; nothing is stopped or freed here. -/
def OnAudioSuspend (activeGroupKnown : Bool) (s : CoordState) :
    CoordState × List ClientEvent :=
  if !activeGroupKnown then (s, [])
  else
    ({ s with timerScheduled := true },
      (if s.timerScheduled then [ClientEvent.cancelSuspendTimer] else [])
        ++ [ClientEvent.armSuspendTimerGroupStop])

/-- Embedding of LeAudioClientImpl::OnAudioSinkSuspend (client.cc 2654-2687):
the switch on audio_sender_state_ followed by the last-suspender check that
calls OnAudioSuspend. -/
def OnAudioSinkSuspend (activeGroupKnown : Bool) (s : CoordState) :
    CoordState × List ClientEvent :=
  match s.sender with
  | AudioState.readyToStart | AudioState.started =>
    let s' := { s with sender := AudioState.readyToRelease }
    if s'.receiver = AudioState.idle ∨ s'.receiver = AudioState.readyToRelease then
      OnAudioSuspend activeGroupKnown s'
    else (s', [])
  | AudioState.releasing => (s, [])
  | AudioState.idle =>
    if s.receiver = AudioState.readyToRelease then OnAudioSuspend activeGroupKnown s
    else (s, [])
  | AudioState.readyToRelease =>
    if s.receiver = AudioState.idle ∨ s.receiver = AudioState.readyToRelease then
      OnAudioSuspend activeGroupKnown s
    else (s, [])

/-- Embedding of LeAudioClientImpl::GroupStop (client.cc 627-648), the expiry
callback of the keep-alive alarm: StopStream is requested only for a known,
non-empty group not already in IDLE.  Encoder release then follows from the
resulting stream-status callbacks. -/
def GroupStopOnTimeout (groupFound groupEmpty : Bool) (groupState : AseState) :
    List ClientEvent :=
  if !groupFound then []
  else if groupEmpty then []
  else if groupState = AseState.idle then []
  else [ClientEvent.stopStreamRequest]

/-- C7: a resume hitting READY_TO_RELEASE while the other direction is
STARTED, IDLE or READY_TO_RELEASE restores the direction to STARTED, cancels
the keep-alive alarm and confirms the streaming request, emitting neither an
encoder release nor a group-stream stop; the suspend handler likewise frees
and stops nothing and only arms the alarm whose expiry runs GroupStop, which
is what requests the stream stop (and hence the encoder teardown). -/
theorem resume_within_keepalive (c : ResumeCtx) (s : CoordState)
    (hg : c.groupFound = true) (hconf : c.sinkConfAvailable = true)
    (hsnd : s.sender = AudioState.readyToRelease)
    (hrcv : s.receiver = AudioState.started ∨ s.receiver = AudioState.idle ∨
      s.receiver = AudioState.readyToRelease) :
    ((OnAudioSinkResume c s).1.sender = AudioState.started
      ∧ (OnAudioSinkResume c s).1.timerScheduled = false
      ∧ ClientEvent.confirmSourceRequest ∈ (OnAudioSinkResume c s).2
      ∧ ClientEvent.freeEncoders ∉ (OnAudioSinkResume c s).2
      ∧ ClientEvent.stopStreamRequest ∉ (OnAudioSinkResume c s).2)
    ∧ (∀ ag t, ClientEvent.freeEncoders ∉ (OnAudioSinkSuspend ag t).2
        ∧ ClientEvent.stopStreamRequest ∉ (OnAudioSinkSuspend ag t).2)
    ∧ (∀ t, t.sender = AudioState.started → t.receiver = AudioState.idle →
        (OnAudioSinkSuspend true t).2.getLast? = some ClientEvent.armSuspendTimerGroupStop)
    ∧ GroupStopOnTimeout true false AseState.streaming = [ClientEvent.stopStreamRequest] := by
  refine ⟨?_, ?_, ?_, rfl⟩
  · have hresume : OnAudioSinkResume c s =
        ({ s with sender := AudioState.started, timerScheduled := false },
          (if s.timerScheduled then [ClientEvent.cancelSuspendTimer] else [])
            ++ [ClientEvent.confirmSourceRequest]) := by
      unfold OnAudioSinkResume
      rw [hg, hconf]
      rcases hrcv with h | h | h <;>
        simp only [Bool.not_true, Bool.false_eq_true, if_false, hsnd, h]
    rw [hresume]
    refine ⟨rfl, rfl, ?_, ?_, ?_⟩ <;> by_cases ht : s.timerScheduled <;> simp [ht]
  · intro ag t
    obtain ⟨snd, rcv, tim⟩ := t
    cases snd <;> cases rcv <;> cases tim <;> cases ag <;>
      simp [OnAudioSinkSuspend, OnAudioSuspend]
  · intro t hsender hreceiver
    unfold OnAudioSinkSuspend OnAudioSuspend
    rw [hsender]
    by_cases ht : t.timerScheduled <;> simp [hreceiver, ht]

/-- Concrete instance of resume_within_keepalive: sender suspended with the
alarm armed and the receiver idle, then resumed. -/
theorem resume_within_keepalive_witness :
    ((OnAudioSinkResume ⟨true, true, true, false, true⟩
        ⟨AudioState.readyToRelease, AudioState.idle, true⟩).1.sender = AudioState.started
      ∧ (OnAudioSinkResume ⟨true, true, true, false, true⟩
          ⟨AudioState.readyToRelease, AudioState.idle, true⟩).1.timerScheduled = false
      ∧ ClientEvent.confirmSourceRequest ∈ (OnAudioSinkResume ⟨true, true, true, false, true⟩
          ⟨AudioState.readyToRelease, AudioState.idle, true⟩).2
      ∧ ClientEvent.freeEncoders ∉ (OnAudioSinkResume ⟨true, true, true, false, true⟩
          ⟨AudioState.readyToRelease, AudioState.idle, true⟩).2
      ∧ ClientEvent.stopStreamRequest ∉ (OnAudioSinkResume ⟨true, true, true, false, true⟩
          ⟨AudioState.readyToRelease, AudioState.idle, true⟩).2)
    ∧ (∀ ag t, ClientEvent.freeEncoders ∉ (OnAudioSinkSuspend ag t).2
        ∧ ClientEvent.stopStreamRequest ∉ (OnAudioSinkSuspend ag t).2)
    ∧ (∀ t, t.sender = AudioState.started → t.receiver = AudioState.idle →
        (OnAudioSinkSuspend true t).2.getLast? = some ClientEvent.armSuspendTimerGroupStop)
    ∧ GroupStopOnTimeout true false AseState.streaming = [ClientEvent.stopStreamRequest] :=
  resume_within_keepalive ⟨true, true, true, false, true⟩
    ⟨AudioState.readyToRelease, AudioState.idle, true⟩ rfl rfl rfl (Or.inr (Or.inl rfl))

/- ------------------------------------------------------------------ -/
/- C9: mono downmix arithmetic                                         -/
/- ------------------------------------------------------------------ -/

/-- Reinterpretation of a bit pattern as a signed 16-bit value, as the C++
cast to int16_t does. -/
def toS16 (n : Nat) : Int :=
  if n % 65536 < 32768 then (n % 65536 : Int) else (n % 65536 : Int) - 65536

/-- Conversion of a signed value to uint32_t, as the C++ cast does
(two's-complement wrap-around). -/
def toU32 (x : Int) : Nat := (x % 4294967296).toNat

/-- Embedding of the per-frame body of LeAudioClientImpl::get_mono_stream
(client.cc 1878-1888) on the two raw little-endian 16-bit samples: each
channel is cast to int16_t and arithmetically shifted right one bit (floor
division by two), the two halves are added as uint32_t, the sum is shifted
right one bit and the result cast back to int16_t. -/
def monoSampleRaw (l r : Nat) : Int :=
  toS16 (((toU32 (toS16 l / 2) + toU32 (toS16 r / 2)) % 4294967296) / 2)

/-- Embedding of the get_mono_stream loop over the interleaved stereo S16
little-endian byte stream (pitch 1): every four bytes produce one mono
sample. -/
def get_mono_stream : List Nat → List Int
  | lLo :: lHi :: rLo :: rHi :: rest =>
    monoSampleRaw (lHi * 256 + lLo) (rHi * 256 + rLo) :: get_mono_stream rest
  | _ => []

/-- Arithmetic mean of the two samples as the claim states it (the sum halved
with floor rounding). -/
def specMonoMean (l r : Nat) : Int := (toS16 l + toS16 r) / 2

/-- C9 counterexample: for the frame with left = right = 100 the produced mono
sample is 50, not the arithmetic mean 100 of the inputs, so the claim fails
on the code. -/
theorem monoDownmix_not_mean :
    get_mono_stream [100, 0, 100, 0] = [50]
    ∧ specMonoMean 100 100 = 100
    ∧ (50 : Int) ≠ 100 := by
  refine ⟨?_, by decide, by decide⟩
  show [monoSampleRaw 100 100] = [50]
  decide

/-- C9 amended: each produced mono sample is the floor mean of the two
1-bit-headroom-shifted (halved) input samples, that is
monoSampleRaw l r = ((l16 / 2) + (r16 / 2)) / 2 with floor divisions on the
signed 16-bit interpretations, roughly a quarter of the input sum rather than
the arithmetic mean. -/
theorem monoSample_core (x y : Int) (hx1 : -16384 ≤ x) (hx2 : x ≤ 16383)
    (hy1 : -16384 ≤ y) (hy2 : y ≤ 16383) :
    toS16 ((toU32 x + toU32 y) % 4294967296 / 2) = (x + y) / 2 := by
  have hux : (toU32 x : Int) = x % 4294967296 := by unfold toU32; omega
  have huy : (toU32 y : Int) = y % 4294967296 := by unfold toU32; omega
  unfold toS16
  split_ifs <;> omega

theorem monoDownmix_headroom_mean (l r : Nat) :
    monoSampleRaw l r = (toS16 l / 2 + toS16 r / 2) / 2 := by
  have hl : -32768 ≤ toS16 l ∧ toS16 l ≤ 32767 := by unfold toS16; split_ifs <;> omega
  have hr : -32768 ≤ toS16 r ∧ toS16 r ≤ 32767 := by unfold toS16; split_ifs <;> omega
  have hcore := monoSample_core (toS16 l / 2) (toS16 r / 2)
    (by omega) (by omega) (by omega) (by omega)
  unfold monoSampleRaw
  exact hcore


/- ------------------------------------------------------------------ -/
/- C4: group-registry lifecycle invariant                              -/
/- ------------------------------------------------------------------ -/

/-- A registered group as kept by the group registry (aseGroups_): id, ordered
member addresses and the cig_created_ lease flag. -/
structure RegGroup where
  gid : Int
  members : List Nat
  cigCreated : Bool
deriving DecidableEq

/-- Embedding of LeAudioDeviceGroups::FindById on the registry list: the
first group with the id. -/
def regFindById (reg : List RegGroup) (gid : Int) : Option RegGroup :=
  reg.find? (fun g => g.gid == gid)

/-- Mutation of the group found by FindById: the registry operations of the
client look the group up, then update it in place or (when the update returns
none) remove it; groups other than the first match are untouched. -/
def regUpdateFirst (gid : Int) (f : RegGroup → Option RegGroup) :
    List RegGroup → List RegGroup
  | [] => []
  | g :: rest =>
    if g.gid == gid then
      match f g with
      | some g' => g' :: rest
      | none => rest
    else g :: regUpdateFirst gid f rest

/-- Embedding of LeAudioClientImpl::remove_group_if_possible (client.cc
484-488): the group is removed from the registry exactly when it is empty and
its CIG was not created. -/
def remove_group_if_possible (reg : List RegGroup) (gid : Int) : List RegGroup :=
  regUpdateFirst gid
    (fun g => if g.members.isEmpty && !g.cigCreated then none else some g) reg

/-- Registry effect of LeAudioClientImpl::group_remove_node (client.cc
490-520): RemoveNode erases the member from the group's list (devices.cc,
outside src/; the spec's data model forbids duplicate members), and when the
group became empty remove_group_if_possible runs, so the group is dropped
exactly when it is now empty and its CIG was not created. -/
def group_remove_node (reg : List RegGroup) (gid : Int) (addr : Nat) :
    List RegGroup :=
  regUpdateFirst gid
    (fun g =>
      if (g.members.erase addr).isEmpty && !g.cigCreated then none
      else some { g with members := g.members.erase addr }) reg

/-- Modelled from the spec: ProcessHciNotifOnCigRemove (state_machine.cc,
outside src/) releases the group's cig_created lease on successful CIG-remove
completion (spec section 5: the group holds the lease between Create-CIG
success and Remove-CIG completion); on failure the lease is kept. -/
def cigClear (ok : Bool) (g : RegGroup) : RegGroup :=
  if ok then { g with cigCreated := false } else g

/-- Embedding of the CIG-remove completion arm of
LeAudioClientImpl::IsoCigEventsCb (client.cc 3111-3116): the state machine is
notified (cigClear) and then remove_group_if_possible runs on the same
group. -/
def cig_remove_completion (reg : List RegGroup) (gid : Int) (ok : Bool) :
    List RegGroup :=
  regUpdateFirst gid
    (fun g =>
      if (cigClear ok g).members.isEmpty && !(cigClear ok g).cigCreated then none
      else some (cigClear ok g)) reg

/-- The group-registry invariant of the claim: every registered group has a
member or holds the CIG lease. -/
def RegInv (reg : List RegGroup) : Prop :=
  ∀ g ∈ reg, g.members ≠ [] ∨ g.cigCreated = true

/-- A group that fails the empty-and-unleased test satisfies the registry
invariant. -/
theorem keepCondition (v : RegGroup)
    (hc : ¬ (v.members.isEmpty && !v.cigCreated) = true) :
    v.members ≠ [] ∨ v.cigCreated = true := by
  cases hcig : v.cigCreated
  · left
    intro hnil
    apply hc
    rw [hnil, hcig]
    rfl
  · exact Or.inr rfl

/-- regUpdateFirst preserves the invariant whenever the update function only
keeps groups satisfying it. -/
theorem regUpdateFirst_inv (gid : Int) (f : RegGroup → Option RegGroup)
    (hf : ∀ g g', f g = some g' → g'.members ≠ [] ∨ g'.cigCreated = true) :
    ∀ reg, RegInv reg → RegInv (regUpdateFirst gid f reg) := by
  intro reg
  induction reg with
  | nil => intro _ g hg; exact absurd hg (List.not_mem_nil g)
  | cons x rest ih =>
    intro hinv
    have hx := hinv x (List.mem_cons_self x rest)
    have hrest : RegInv rest := fun g hg => hinv g (List.mem_cons_of_mem x hg)
    unfold regUpdateFirst
    by_cases hgid : (x.gid == gid) = true
    · rw [if_pos hgid]
      cases hfx : f x with
      | none => exact hrest
      | some x' =>
        intro g hg
        rcases List.mem_cons.mp hg with rfl | hgm
        · exact hf x g hfx
        · exact hrest g hgm
    · rw [if_neg hgid]
      intro g hg
      rcases List.mem_cons.mp hg with rfl | hgm
      · exact hx
      · exact ih hrest g hgm

/-- When the looked-up group is dropped by the update function the registry
shrinks by exactly one entry. -/
theorem regUpdateFirst_length_drop (gid : Int) (f : RegGroup → Option RegGroup)
    (g : RegGroup) (hfg : f g = none) :
    ∀ reg, regFindById reg gid = some g →
      (regUpdateFirst gid f reg).length + 1 = reg.length := by
  intro reg
  induction reg with
  | nil => intro h; simp [regFindById] at h
  | cons x rest ih =>
    intro hfind
    cases hgid : (x.gid == gid) with
    | true =>
      simp only [regFindById, List.find?_cons, hgid, Option.some.injEq] at hfind
      subst hfind
      simp [regUpdateFirst, hgid, hfg]
    | false =>
      simp only [regFindById, List.find?_cons, hgid] at hfind
      have hfind' : regFindById rest gid = some g := hfind
      simp only [regUpdateFirst, hgid, Bool.false_eq_true, if_false, List.length_cons]
      have := ih hfind'
      omega

/-- When the looked-up group is kept unchanged the registry is unchanged. -/
theorem regUpdateFirst_keep (gid : Int) (f : RegGroup → Option RegGroup)
    (g : RegGroup) (hfg : f g = some g) :
    ∀ reg, regFindById reg gid = some g → regUpdateFirst gid f reg = reg := by
  intro reg
  induction reg with
  | nil => intro h; simp [regFindById] at h
  | cons x rest ih =>
    intro hfind
    cases hgid : (x.gid == gid) with
    | true =>
      simp only [regFindById, List.find?_cons, hgid, Option.some.injEq] at hfind
      subst hfind
      simp [regUpdateFirst, hgid, hfg]
    | false =>
      simp only [regFindById, List.find?_cons, hgid] at hfind
      have hfind' : regFindById rest gid = some g := hfind
      simp only [regUpdateFirst, hgid, Bool.false_eq_true, if_false]
      rw [ih hfind']

/-- When the looked-up group is kept as g' carrying the same id, a later
lookup finds g'. -/
theorem regUpdateFirst_find_updated (gid : Int) (f : RegGroup → Option RegGroup)
    (g g' : RegGroup) (hfg : f g = some g') (hid : g'.gid = g.gid) :
    ∀ reg, regFindById reg gid = some g →
      regFindById (regUpdateFirst gid f reg) gid = some g' := by
  intro reg
  induction reg with
  | nil => intro h; simp [regFindById] at h
  | cons x rest ih =>
    intro hfind
    cases hgid : (x.gid == gid) with
    | true =>
      simp only [regFindById, List.find?_cons, hgid, Option.some.injEq] at hfind
      subst hfind
      have hgid' : (g'.gid == gid) = true := by rw [hid]; exact hgid
      simp [regUpdateFirst, hgid, hfg, regFindById, List.find?_cons, hgid']
    | false =>
      simp only [regFindById, List.find?_cons, hgid] at hfind
      have hfind' : regFindById rest gid = some g := hfind
      simp only [regUpdateFirst, hgid, Bool.false_eq_true, if_false]
      have hres := ih hfind'
      simp only [regFindById, List.find?_cons, hgid]
      exact hres

/-- C4: the three registry operations preserve the invariant that every
registered group has a member or the CIG lease; remove_group_if_possible
removes a group only when it is empty with no CIG; removing the last member
removes the group unless the CIG lease is held, in which case the empty group
stays registered; and a successful CIG-remove completion removes an empty
leased group. -/
theorem registry_group_lifecycle
    (reg : List RegGroup) (gid : Int) (addr : Nat) (ok : Bool) (g : RegGroup)
    (hinv : RegInv reg) (hfind : regFindById reg gid = some g) :
    RegInv (remove_group_if_possible reg gid)
    ∧ RegInv (group_remove_node reg gid addr)
    ∧ RegInv (cig_remove_completion reg gid ok)
    ∧ ((g.members ≠ [] ∨ g.cigCreated = true) →
        remove_group_if_possible reg gid = reg)
    ∧ (g.members = [] → g.cigCreated = false →
        (remove_group_if_possible reg gid).length + 1 = reg.length)
    ∧ (g.members.erase addr = [] → g.cigCreated = false →
        (group_remove_node reg gid addr).length + 1 = reg.length)
    ∧ (g.members.erase addr = [] → g.cigCreated = true →
        regFindById (group_remove_node reg gid addr) gid =
          some { g with members := [] })
    ∧ (g.members = [] → g.cigCreated = true →
        (cig_remove_completion reg gid true).length + 1 = reg.length) := by
  refine ⟨?_, ?_, ?_, ?_, ?_, ?_, ?_, ?_⟩
  · refine regUpdateFirst_inv gid _ ?_ reg hinv
    intro h h' hk
    by_cases hc : (h.members.isEmpty && !h.cigCreated) = true
    · rw [if_pos hc] at hk
      exact absurd hk (by simp)
    · rw [if_neg hc] at hk
      obtain rfl : h = h' := by injection hk
      exact keepCondition h hc
  · refine regUpdateFirst_inv gid _ ?_ reg hinv
    intro h h' hk
    by_cases hc : ((h.members.erase addr).isEmpty && !h.cigCreated) = true
    · rw [if_pos hc] at hk
      exact absurd hk (by simp)
    · rw [if_neg hc] at hk
      obtain rfl : { h with members := h.members.erase addr } = h' := by injection hk
      exact keepCondition { h with members := h.members.erase addr } hc
  · refine regUpdateFirst_inv gid _ ?_ reg hinv
    intro h h' hk
    by_cases hc : ((cigClear ok h).members.isEmpty && !(cigClear ok h).cigCreated) = true
    · rw [if_pos hc] at hk
      exact absurd hk (by simp)
    · rw [if_neg hc] at hk
      obtain rfl : cigClear ok h = h' := by injection hk
      exact keepCondition (cigClear ok h) hc
  · intro hkeep
    refine regUpdateFirst_keep gid _ g ?_ reg hfind
    have hc : (g.members.isEmpty && !g.cigCreated) = false := by
      rcases hkeep with he | hcig
      · have hne : g.members.isEmpty = false := by
          cases hm : g.members with
          | nil => exact absurd hm he
          | cons a t => rfl
        rw [hne]
        rfl
      · rw [hcig]
        exact Bool.and_false _
    rw [hc]
    rfl
  · intro he hcig
    refine regUpdateFirst_length_drop gid _ g ?_ reg hfind
    simp [he, hcig]
  · intro he hcig
    refine regUpdateFirst_length_drop gid _ g ?_ reg hfind
    simp [he, hcig]
  · intro he hcig
    refine regUpdateFirst_find_updated gid _ g { g with members := [] } ?_ rfl reg hfind
    simp [he, hcig]
  · intro he hcig
    refine regUpdateFirst_length_drop gid _ g ?_ reg hfind
    simp [cigClear, he]

/-- Concrete instance of registry_group_lifecycle: a two-group registry where
removing group 1's last member keeps it alive because its CIG lease is held. -/
theorem registry_group_lifecycle_witness :
    regFindById (group_remove_node
        [RegGroup.mk 1 [5] true, RegGroup.mk 2 [6] false] 1 5) 1 =
      some (RegGroup.mk 1 [] true) :=
  (registry_group_lifecycle [RegGroup.mk 1 [5] true, RegGroup.mk 2 [6] false] 1 5 true
    (RegGroup.mk 1 [5] true)
    (by intro g hg; fin_cases hg <;> simp)
    rfl).2.2.2.2.2.2.1 rfl rfl
